import Mathlib

/-!
A shallow embedding of `batch_remove_black_bg.py` (StarBurst repository) and
proofs of the specified properties.

Images are modelled as functions from row/column indices to pixel values:
a 3-channel (BGR) image has pixels `Nat × Nat × Nat` (each channel value a
`Nat`, the uint8 range 0..255 in practice), a 4-channel (BGRA) image pairs
the colour triple with an alpha value.  Python `int` parameters (`threshold`,
`feather`, `dilate`) are modelled as `Int`.

The external OpenCV Gaussian blur (`cv2.GaussianBlur`) is modelled as an
abstract parameter `blur : Int → Chan h w → Chan h w` (kernel size, alpha
plane): the claims speak only about when it is invoked and about properties
(monotonicity) that the real non-negative-kernel blur satisfies.
-/

namespace StarBurst

instance {ε α : Type} [DecidableEq ε] [DecidableEq α] : DecidableEq (Except ε α) := fun a b =>
  match a, b with
  | Except.ok x, Except.ok y =>
    if h : x = y then isTrue (by cases h; rfl) else isFalse (by intro hc; cases hc; exact h rfl)
  | Except.error x, Except.error y =>
    if h : x = y then isTrue (by cases h; rfl) else isFalse (by intro hc; cases hc; exact h rfl)
  | Except.ok _, Except.error _ => isFalse (by intro hc; cases hc)
  | Except.error _, Except.ok _ => isFalse (by intro hc; cases hc)

/-- A BGR pixel: the three 8-bit colour channel values. -/
abbrev Pix3 : Type := Nat × Nat × Nat

/-- A 3-channel image of height `h` and width `w`. -/
abbrev Img3 (h w : Nat) : Type := Fin h → Fin w → Pix3

/-- A single channel plane (here: masks and alpha planes). -/
abbrev Chan (h w : Nat) : Type := Fin h → Fin w → Nat

/-- A 4-channel (BGRA) image: colour triple plus alpha. -/
abbrev Img4 (h w : Nat) : Type := Fin h → Fin w → Pix3 × Nat

/-- Python: `black_mask = (bgr[:,:,0] <= threshold) & (bgr[:,:,1] <= threshold) &
(bgr[:,:,2] <= threshold)`: a pixel is background iff all three channel
values are at or below the threshold. -/
def blackMask (threshold : Int) (bgr : Img3 h w) : Fin h → Fin w → Bool :=
  fun i j =>
    decide (((bgr i j).1 : Int) ≤ threshold) &&
    decide (((bgr i j).2.1 : Int) ≤ threshold) &&
    decide (((bgr i j).2.2 : Int) ≤ threshold)

/-- Python: `mask = black_mask.astype(np.uint8) * 255`. -/
def maskImg (threshold : Int) (bgr : Img3 h w) : Chan h w :=
  fun i j => if blackMask threshold bgr i j then 255 else 0

/-- Reading a channel plane at `Int` coordinates, 0 outside the image.
`cv2.dilate`'s default border value for dilation is `-inf`, so out-of-bounds
positions never contribute to the maximum; 0 is neutral for `max` on `Nat`. -/
def getPad (m : Chan h w) (i j : Int) : Nat :=
  if hi : 0 ≤ i ∧ i.toNat < h then
    if hj : 0 ≤ j ∧ j.toNat < w then m ⟨i.toNat, hi.2⟩ ⟨j.toNat, hj.2⟩ else 0
  else 0

/-- The offsets of the 3×3 all-ones structuring element
(`kernel = np.ones((3,3), np.uint8)`), anchored at its centre. -/
def offsets3x3 : List (Int × Int) :=
  [(-1, -1), (-1, 0), (-1, 1), (0, -1), (0, 0), (0, 1), (1, -1), (1, 0), (1, 1)]

/-- One application of `cv2.dilate(mask, kernel)` with the 3×3 all-ones
kernel: each pixel becomes the maximum over its in-bounds 3×3 neighbourhood. -/
def dilateOnce (m : Chan h w) : Chan h w :=
  fun i j =>
    (offsets3x3.map (fun o => getPad m ((i : Nat) + o.1) ((j : Nat) + o.2))).foldr max 0

/-- Python: `cv2.dilate(mask, kernel, iterations=n)`: `n` iterated 3×3 dilations. -/
def dilateN (n : Nat) (m : Chan h w) : Chan h w := dilateOnce^[n] m

/-- The alpha plane computed by `remove_black_background_array`:
threshold mask, optional dilation (`if dilate > 0`), inversion
(`cv2.bitwise_not`, i.e. `255 - v` on uint8), and optional feathering
(`if feather and feather > 0 and feather % 2 == 1`). -/
def alphaOf (blur : Int → Chan h w → Chan h w) (threshold feather dilate : Int)
    (bgr : Img3 h w) : Chan h w :=
  let mask := maskImg threshold bgr
  let mask2 := if 0 < dilate then dilateN dilate.toNat mask else mask
  let alpha : Chan h w := fun i j => 255 - mask2 i j
  if feather ≠ 0 ∧ 0 < feather ∧ feather % 2 = 1 then blur feather alpha else alpha

/-- Python: `remove_black_background_array(bgr, threshold, feather, dilate)`:
raises `ValueError("Empty image provided")` on an empty image, otherwise
builds the BGRA image whose colour channels come from `cv2.cvtColor(bgr,
COLOR_BGR2BGRA)` (unchanged) and whose alpha channel is `alphaOf`
(the final `bgra[:,:,3] = alpha` assignment). -/
def remove_black_background_array (blur : Int → Chan h w → Chan h w)
    (bgr : Img3 h w) (threshold feather dilate : Int) :
    Except String (Img4 h w) :=
  if h * w = 0 then Except.error "Empty image provided"
  else Except.ok (fun i j => (bgr i j, alphaOf blur threshold feather dilate bgr i j))

/-- The per-pixel background test, as the claim words it: all three channel
values at or below the threshold. -/
def allBelow (threshold : Int) (p : Pix3) : Prop :=
  (p.1 : Int) ≤ threshold ∧ (p.2.1 : Int) ≤ threshold ∧ (p.2.2 : Int) ≤ threshold

instance (threshold : Int) (p : Pix3) : Decidable (allBelow threshold p) := by
  unfold allBelow; infer_instance

lemma blackMask_eq_allBelow (threshold : Int) (bgr : Img3 h w) (i : Fin h) (j : Fin w) :
    blackMask threshold bgr i j = true ↔ allBelow threshold (bgr i j) := by
  simp [blackMask, allBelow, and_assoc]

lemma alphaOf_plain (blur : Int → Chan h w → Chan h w) (threshold : Int)
    (bgr : Img3 h w) (i : Fin h) (j : Fin w) :
    alphaOf blur threshold 0 0 bgr i j =
      if blackMask threshold bgr i j then 0 else 255 := by
  unfold alphaOf maskImg
  norm_num
  by_cases hb : blackMask threshold bgr i j <;> simp [hb]

lemma remove_ok (blur : Int → Chan h w → Chan h w) (bgr : Img3 h w)
    (threshold feather dilate : Int) (hh : 0 < h) (hw : 0 < w) :
    remove_black_background_array blur bgr threshold feather dilate =
      Except.ok (fun i j => (bgr i j, alphaOf blur threshold feather dilate bgr i j)) := by
  unfold remove_black_background_array
  rw [if_neg (Nat.mul_ne_zero hh.ne' hw.ne')]

/-- For a non-degenerate result, the claimed pixel of the output is exactly
colours-plus-`alphaOf`. -/
lemma remove_ok_inv (blur : Int → Chan h w → Chan h w) (bgr : Img3 h w)
    (threshold feather dilate : Int) (out : Img4 h w) (i : Fin h) (j : Fin w)
    (hok : remove_black_background_array blur bgr threshold feather dilate = Except.ok out) :
    out i j = (bgr i j, alphaOf blur threshold feather dilate bgr i j) := by
  rw [remove_ok blur bgr threshold feather dilate i.pos j.pos] at hok
  cases hok
  rfl

/-- The identity "blur", used to instantiate the abstract blur parameter in
concrete witnesses. -/
def idBlur {h w : Nat} : Int → Chan h w → Chan h w := fun _ a => a

/-- A concrete 1×1 image with all channels 10. -/
def img10 : Img3 1 1 := fun _ _ => (10, 10, 10)

/-- A concrete 1×1 image with all channels 100. -/
def img100 : Img3 1 1 := fun _ _ => (100, 100, 100)

/-- C1: with `dilate = 0` and `feather = 0`, the output alpha of a pixel is 0
iff all three of its channel values are ≤ threshold, and 255 otherwise. -/
theorem c1_alpha_iff_black (blur : Int → Chan h w → Chan h w) (bgr : Img3 h w)
    (threshold : Int) (out : Img4 h w)
    (hok : remove_black_background_array blur bgr threshold 0 0 = Except.ok out)
    (i : Fin h) (j : Fin w) :
    ((out i j).2 = 0 ↔ allBelow threshold (bgr i j)) ∧
    (¬ allBelow threshold (bgr i j) → (out i j).2 = 255) := by
  rw [remove_ok_inv blur bgr threshold 0 0 out i j hok]
  rw [show ((bgr i j, alphaOf blur threshold 0 0 bgr i j).2) =
        alphaOf blur threshold 0 0 bgr i j from rfl]
  rw [alphaOf_plain]
  by_cases hb : blackMask threshold bgr i j
  · rw [blackMask_eq_allBelow] at hb
    simp [blackMask_eq_allBelow, hb]
  · rw [Bool.not_eq_true] at hb
    have hb2 : ¬ allBelow threshold (bgr i j) := by
      rw [← blackMask_eq_allBelow threshold bgr i j]
      simp [hb]
    simp [hb, hb2]

theorem c1_alpha_iff_black_witness :
    (remove_black_background_array (h := 1) (w := 1) idBlur img10 20 0 0 =
      Except.ok (fun _ _ => ((10, 10, 10), 0))) ∧
    ((((fun (_ : Fin 1) (_ : Fin 1) => (((10, 10, 10) : Pix3), (0 : Nat))) 0 0).2 = 0 ↔
        allBelow 20 (img10 0 0)) ∧
      (¬ allBelow 20 (img10 0 0) →
        ((fun (_ : Fin 1) (_ : Fin 1) => (((10, 10, 10) : Pix3), (0 : Nat))) 0 0).2 = 255)) :=
  ⟨by decide,
    c1_alpha_iff_black idBlur img10 20
      (fun (_ : Fin 1) (_ : Fin 1) => (((10, 10, 10) : Pix3), (0 : Nat))) (by decide) 0 0⟩

/-- C2: on a non-empty image the function succeeds, the output has the same
height and width (enforced by the indexed image types `Img3 h w` / `Img4 h w`),
and every output pixel's colour triple equals the input pixel's colour triple,
for every configuration. -/
theorem c2_colours_preserved (blur : Int → Chan h w → Chan h w) (bgr : Img3 h w)
    (threshold feather dilate : Int) (hh : 0 < h) (hw : 0 < w) :
    ∃ out : Img4 h w,
      remove_black_background_array blur bgr threshold feather dilate = Except.ok out ∧
      ∀ (i : Fin h) (j : Fin w), (out i j).1 = bgr i j :=
  ⟨fun i j => (bgr i j, alphaOf blur threshold feather dilate bgr i j),
    remove_ok blur bgr threshold feather dilate hh hw, fun _ _ => rfl⟩

theorem c2_colours_preserved_witness :
    ∃ out : Img4 1 1,
      remove_black_background_array idBlur img100 20 3 1 = Except.ok out ∧
      ∀ (i : Fin 1) (j : Fin 1), (out i j).1 = img100 i j :=
  c2_colours_preserved idBlur img100 20 3 1 (by decide) (by decide)

/-! ### Dilation lemmas -/

lemma le_foldr_max {x : Nat} {l : List Nat} (hx : x ∈ l) : x ≤ l.foldr max 0 := by
  induction l with
  | nil => cases hx
  | cons a t ih =>
    rcases List.mem_cons.mp hx with h | h
    · subst h; exact le_max_left _ _
    · exact le_trans (ih h) (le_max_right _ _)

lemma foldr_max_map_mono {α : Type} (l : List α) (f g : α → Nat)
    (h : ∀ x ∈ l, f x ≤ g x) :
    (l.map f).foldr max 0 ≤ (l.map g).foldr max 0 := by
  induction l with
  | nil => simp
  | cons a t ih =>
    simp only [List.map_cons, List.foldr_cons]
    exact max_le_max (h a (List.mem_cons_self a t))
      (ih fun x hx => h x (List.mem_cons_of_mem a hx))

lemma foldr_max_01 (l : List Nat) (h : ∀ x ∈ l, x = 0 ∨ x = 255) :
    l.foldr max 0 = 0 ∨ l.foldr max 0 = 255 := by
  induction l with
  | nil => left; rfl
  | cons a t ih =>
    have ha := h a (List.mem_cons_self a t)
    have ht := ih fun x hx => h x (List.mem_cons_of_mem a hx)
    simp only [List.foldr_cons]
    rcases ha with ha | ha <;> rcases ht with ht | ht <;> rw [ha, ht] <;> simp

lemma getPad_mono {m1 m2 : Chan h w} (hm : ∀ i j, m1 i j ≤ m2 i j) (a b : Int) :
    getPad m1 a b ≤ getPad m2 a b := by
  unfold getPad
  split_ifs with h1 h2
  · exact hm _ _
  · exact le_refl _
  · exact le_refl _

lemma getPad_01 {m : Chan h w} (h01 : ∀ i j, m i j = 0 ∨ m i j = 255) (a b : Int) :
    getPad m a b = 0 ∨ getPad m a b = 255 := by
  unfold getPad
  split_ifs with h1 h2
  · exact h01 _ _
  · left; rfl
  · left; rfl

lemma getPad_at (m : Chan h w) (i : Fin h) (j : Fin w) :
    getPad m ((i : Nat) : Int) ((j : Nat) : Int) = m i j := by
  have h1 : 0 ≤ ((i : Nat) : Int) ∧ ((i : Nat) : Int).toNat < h :=
    ⟨Int.natCast_nonneg _, by simp⟩
  have h2 : 0 ≤ ((j : Nat) : Int) ∧ ((j : Nat) : Int).toNat < w :=
    ⟨Int.natCast_nonneg _, by simp⟩
  unfold getPad
  rw [dif_pos h1, dif_pos h2]
  congr 1

lemma dilateOnce_mono {m1 m2 : Chan h w} (hm : ∀ i j, m1 i j ≤ m2 i j) (i : Fin h) (j : Fin w) :
    dilateOnce m1 i j ≤ dilateOnce m2 i j :=
  foldr_max_map_mono _ _ _ fun _ _ => getPad_mono hm _ _

lemma le_dilateOnce (m : Chan h w) (i : Fin h) (j : Fin w) : m i j ≤ dilateOnce m i j := by
  have hmem0 : ((0, 0) : Int × Int) ∈ offsets3x3 := by decide
  have hmem : getPad m ((i : Nat) + (0 : Int)) ((j : Nat) + (0 : Int)) ∈
      offsets3x3.map (fun o => getPad m ((i : Nat) + o.1) ((j : Nat) + o.2)) :=
    List.mem_map_of_mem (fun o : Int × Int => getPad m ((i : Nat) + o.1) ((j : Nat) + o.2)) hmem0
  have : m i j ≤ getPad m ((i : Nat) + (0 : Int)) ((j : Nat) + (0 : Int)) := by
    rw [add_zero, add_zero, getPad_at]
  exact le_trans this (le_foldr_max hmem)

lemma dilateOnce_01 {m : Chan h w} (h01 : ∀ i j, m i j = 0 ∨ m i j = 255) (i : Fin h) (j : Fin w) :
    dilateOnce m i j = 0 ∨ dilateOnce m i j = 255 := by
  apply foldr_max_01
  intro x hx
  rcases List.mem_map.mp hx with ⟨o, _, rfl⟩
  exact getPad_01 h01 _ _

lemma le_dilateN (n : Nat) (m : Chan h w) (i : Fin h) (j : Fin w) : m i j ≤ dilateN n m i j := by
  induction n with
  | zero => exact le_refl _
  | succ k ih =>
    have : dilateN (k + 1) m = dilateOnce (dilateN k m) := Function.iterate_succ_apply' _ _ _
    rw [this]
    exact le_trans ih (le_dilateOnce _ _ _)

lemma dilateN_le_dilateN {n1 n2 : Nat} (hn : n1 ≤ n2) (m : Chan h w) (i : Fin h) (j : Fin w) :
    dilateN n1 m i j ≤ dilateN n2 m i j := by
  obtain ⟨k, rfl⟩ := Nat.exists_eq_add_of_le hn
  have : dilateN (n1 + k) m = dilateN k (dilateN n1 m) := by
    unfold dilateN
    rw [Nat.add_comm, Function.iterate_add_apply]
  rw [this]
  exact le_dilateN k _ i j

lemma dilateN_01 {m : Chan h w} (h01 : ∀ i j, m i j = 0 ∨ m i j = 255) (n : Nat)
    (i : Fin h) (j : Fin w) : dilateN n m i j = 0 ∨ dilateN n m i j = 255 := by
  induction n generalizing i j with
  | zero => exact h01 i j
  | succ k ih =>
    have : dilateN (k + 1) m = dilateOnce (dilateN k m) := Function.iterate_succ_apply' _ _ _
    rw [this]
    exact dilateOnce_01 (fun a b => ih a b) i j

lemma maskImg_01 (threshold : Int) (bgr : Img3 h w) (i : Fin h) (j : Fin w) :
    maskImg threshold bgr i j = 0 ∨ maskImg threshold bgr i j = 255 := by
  unfold maskImg
  split_ifs <;> simp

/-- The inverted, possibly dilated, binary mask: the alpha channel before any
feathering (`alpha = cv2.bitwise_not(mask)` after the optional dilation). -/
def invDilMask (threshold dilate : Int) (bgr : Img3 h w) : Chan h w :=
  let mask := maskImg threshold bgr
  let mask2 := if 0 < dilate then dilateN dilate.toNat mask else mask
  fun i j => 255 - mask2 i j

lemma alphaOf_eq (blur : Int → Chan h w → Chan h w) (threshold feather dilate : Int)
    (bgr : Img3 h w) :
    alphaOf blur threshold feather dilate bgr =
      if feather ≠ 0 ∧ 0 < feather ∧ feather % 2 = 1 then
        blur feather (invDilMask threshold dilate bgr)
      else invDilMask threshold dilate bgr := rfl

lemma mask2_eq_dilateN (d : Int) (m : Chan h w) :
    (if 0 < d then dilateN d.toNat m else m) = dilateN d.toNat m := by
  split_ifs with hd
  · rfl
  · rw [Int.toNat_of_nonpos (not_lt.mp hd)]
    rfl

lemma invDilMask_01 (threshold dilate : Int) (bgr : Img3 h w) (i : Fin h) (j : Fin w) :
    invDilMask threshold dilate bgr i j = 0 ∨ invDilMask threshold dilate bgr i j = 255 := by
  unfold invDilMask
  rw [mask2_eq_dilateN]
  rcases dilateN_01 (maskImg_01 threshold bgr) dilate.toNat i j with h | h <;> rw [h] <;> simp

lemma invDilMask_antitone (threshold : Int) {d1 d2 : Int} (hd : d1 ≤ d2) (bgr : Img3 h w)
    (i : Fin h) (j : Fin w) :
    invDilMask threshold d2 bgr i j ≤ invDilMask threshold d1 bgr i j := by
  unfold invDilMask
  rw [mask2_eq_dilateN, mask2_eq_dilateN]
  exact Nat.sub_le_sub_left
    (dilateN_le_dilateN (Int.toNat_le_toNat hd) (maskImg threshold bgr) i j) 255

/-- C3: with threshold and feather fixed, and the (external) blur monotone —
which OpenCV's Gaussian blur is, having a non-negative kernel — increasing the
dilate iteration count never shrinks the transparent (alpha = 0) region:
every pixel transparent under `d1 ≤ d2` iterations is transparent under `d2`. -/
theorem c3_dilate_monotone (blur : Int → Chan h w → Chan h w)
    (hmono : ∀ (f : Int) (a b : Chan h w),
      (∀ i j, a i j ≤ b i j) → ∀ i j, blur f a i j ≤ blur f b i j)
    (bgr : Img3 h w) (threshold feather d1 d2 : Int) (hd : d1 ≤ d2)
    (out1 out2 : Img4 h w)
    (h1 : remove_black_background_array blur bgr threshold feather d1 = Except.ok out1)
    (h2 : remove_black_background_array blur bgr threshold feather d2 = Except.ok out2)
    (i : Fin h) (j : Fin w) (hz : (out1 i j).2 = 0) : (out2 i j).2 = 0 := by
  rw [remove_ok_inv blur bgr threshold feather d1 out1 i j h1] at hz
  rw [remove_ok_inv blur bgr threshold feather d2 out2 i j h2]
  have hz' : alphaOf blur threshold feather d1 bgr i j = 0 := hz
  have key : alphaOf blur threshold feather d2 bgr i j ≤
      alphaOf blur threshold feather d1 bgr i j := by
    rw [alphaOf_eq, alphaOf_eq]
    split_ifs with hc
    · exact hmono feather _ _ (fun a b => invDilMask_antitone threshold hd bgr a b) i j
    · exact invDilMask_antitone threshold hd bgr i j
  show alphaOf blur threshold feather d2 bgr i j = 0
  exact Nat.le_zero.mp (hz' ▸ key)

/-- A concrete 2×2 image: one bright pixel at (0,0), black elsewhere. -/
def imgBright2x2 : Img3 2 2 := fun i j => if i = 0 && j = 0 then (100, 100, 100) else (0, 0, 0)

/-- The BGRA result for `imgBright2x2` with threshold 20, no feather, no dilate. -/
def outBright0 : Img4 2 2 := fun i j => (imgBright2x2 i j, if i = 0 && j = 0 then 255 else 0)

/-- The BGRA result for `imgBright2x2` with threshold 20, no feather, dilate 1. -/
def outBright1 : Img4 2 2 := fun i j => (imgBright2x2 i j, 0)

theorem c3_dilate_monotone_witness :
    ((0 : Int) ≤ 1 ∧
      remove_black_background_array (h := 2) (w := 2) idBlur imgBright2x2 20 0 0 =
        Except.ok outBright0 ∧
      remove_black_background_array (h := 2) (w := 2) idBlur imgBright2x2 20 0 1 =
        Except.ok outBright1 ∧
      (outBright0 0 1).2 = 0) ∧
    (outBright1 0 1).2 = 0 :=
  ⟨⟨by decide, by decide, by decide, by decide⟩,
    c3_dilate_monotone idBlur (fun _ _ _ hab i j => hab i j) imgBright2x2 20 0 0 1
      (by decide) outBright0 outBright1 (by decide) (by decide) 0 1 (by decide)⟩

/-- C4: the blur is applied to the alpha plane exactly when `feather > 0` and
`feather` is odd (the Python guard `feather and feather > 0 and feather % 2 == 1`);
when `feather` is 0, negative, or even, the alpha channel is exactly the
inverted (possibly dilated) binary mask, whose values are only 0 and 255. -/
theorem c4_feather_condition (blur : Int → Chan h w → Chan h w) (bgr : Img3 h w)
    (threshold feather dilate : Int) (out : Img4 h w)
    (hok : remove_black_background_array blur bgr threshold feather dilate = Except.ok out) :
    ((0 < feather ∧ feather % 2 = 1) → ∀ (i : Fin h) (j : Fin w),
      (out i j).2 = blur feather (invDilMask threshold dilate bgr) i j) ∧
    (¬ (0 < feather ∧ feather % 2 = 1) → ∀ (i : Fin h) (j : Fin w),
      (out i j).2 = invDilMask threshold dilate bgr i j ∧
      ((out i j).2 = 0 ∨ (out i j).2 = 255)) := by
  constructor
  · intro hc i j
    rw [remove_ok_inv blur bgr threshold feather dilate out i j hok]
    show alphaOf blur threshold feather dilate bgr i j =
      blur feather (invDilMask threshold dilate bgr) i j
    rw [alphaOf_eq, if_pos ⟨hc.1.ne', hc.1, hc.2⟩]
  · intro hc i j
    rw [remove_ok_inv blur bgr threshold feather dilate out i j hok]
    have hneg : ¬ (feather ≠ 0 ∧ 0 < feather ∧ feather % 2 = 1) := by
      intro hx
      exact hc ⟨hx.2.1, hx.2.2⟩
    show alphaOf blur threshold feather dilate bgr i j = invDilMask threshold dilate bgr i j ∧
      (alphaOf blur threshold feather dilate bgr i j = 0 ∨
        alphaOf blur threshold feather dilate bgr i j = 255)
    rw [alphaOf_eq, if_neg hneg]
    exact ⟨rfl, invDilMask_01 threshold dilate bgr i j⟩

/-- The BGRA result for `img10` (all-channels-10, hence background) at
threshold 20: fully transparent. -/
def out10 : Img4 1 1 := fun _ _ => ((10, 10, 10), 0)

theorem c4_feather_condition_witness :
    (remove_black_background_array (h := 1) (w := 1) idBlur img10 20 3 0 = Except.ok out10 ∧
      ((0 : Int) < 3 ∧ (3 : Int) % 2 = 1)) ∧
    (out10 0 0).2 = idBlur 3 (invDilMask 20 0 img10) 0 0 :=
  ⟨⟨by decide, by decide, by decide⟩,
    (c4_feather_condition idBlur img10 20 3 0 out10 (by decide)).1
      ⟨by decide, by decide⟩ 0 0⟩

/-! ### Paths and the per-file driver

Filesystem paths are modelled as lists of path components (so
`os.path.join` is list append, `os.path.dirname` is `dropLast`,
`os.path.basename` is the last component).  Python's empty relative
directory `""` corresponds to the empty component list. -/

/-- Index of the last `'.'` in a character list, if any. -/
def lastDotIdx : List Char → Option Nat
  | [] => none
  | c :: rest =>
    match lastDotIdx rest with
    | some i => some (i + 1)
    | none => if c = '.' then some 0 else none

/-- Python `os.path.splitext` on a bare filename (no separators): split at the last
dot, unless every character before that dot is itself a dot (leading dots
never start an extension, e.g. `".bashrc"` has no extension). -/
def splitextChars (cs : List Char) : List Char × List Char :=
  match lastDotIdx cs with
  | none => (cs, [])
  | some i =>
    if (cs.take i).all (fun c => c = '.') then (cs, []) else (cs.take i, cs.drop i)

def splitext (s : String) : String × String :=
  ((splitextChars s.data).1.asString, (splitextChars s.data).2.asString)

/-- Python `os.path.splitext(...)[0]`, the filename stem. -/
def pyStem (s : String) : String := (splitext s).1

/-- Python: `IMAGE_EXTS = {".jpg", ".jpeg", ".png", ".bmp", ".tif", ".tiff", ".webp"}`. -/
def IMAGE_EXTS : List String := [".jpg", ".jpeg", ".png", ".bmp", ".tif", ".tiff", ".webp"]

/-- Python `str.lower` (ASCII case, which covers the extension allow-list). -/
def pyLower (s : String) : String := (s.data.map Char.toLower).asString

/-- The `list_images` eligibility test: extension (lowercased) in `IMAGE_EXTS`. -/
def eligibleName (fn : String) : Bool := IMAGE_EXTS.contains (pyLower (splitext fn).2)

def commonPrefixLen : List String → List String → Nat
  | a :: as, b :: bs => if a = b then commonPrefixLen as bs + 1 else 0
  | _, _ => 0

/-- Python `os.path.relpath(p, start)` on component lists: strip the common prefix,
climb out of what is left of `start`, and descend into what is left of `p`;
`"."` when the two coincide. -/
def relpathComps (p start : List String) : List String :=
  let k := commonPrefixLen p start
  let res := (start.drop k).map (fun _ => "..") ++ p.drop k
  if res = [] then ["."] else res

/-- Lines 60–64 of `process_one`: the output-path computation.
`rel_dir = relpath(dirname(in_path), args.input) if keep_structure else ""`,
`target_dir = join(out_dir, rel_dir)`, and the output file is
`join(target_dir, splitext(basename(in_path))[0] + ".png")`. -/
def process_one_out_path (args_input : List String) (in_path : List String)
    (out_dir : List String) (keep_structure : Bool) : List String :=
  let rel_dir := if keep_structure then relpathComps in_path.dropLast args_input else []
  let target_dir := out_dir ++ rel_dir
  let stem := pyStem (in_path.getLastD "")
  target_dir ++ [stem ++ ".png"]

/-- Rendering a component path as the string used in outcome messages. -/
def pathStr (p : List String) : String := String.intercalate "/" p

/-- One per-file work item, bundling the input path with the observable
behaviour of the external calls made while processing it: whether
`os.makedirs` succeeds (it is *outside* the `try` block), what `cv2.imread`
returns (`none` = unreadable), and whether `cv2.imwrite` reports success. -/
structure FileTask where
  in_path : List String
  h : Nat
  w : Nat
  makedirs_ok : Except String Unit
  imread : Option (Img3 h w)
  imwrite_ok : Bool

/-- The dimension-polymorphic abstract Gaussian blur. -/
def BlurFn : Type := (h w : Nat) → Int → Chan h w → Chan h w

/-- Python: `process_one(in_path, out_dir, threshold, feather, dilate_iters,
keep_structure)`.  The result is `Except.error e` when an exception escapes
`process_one` (aborting the caller), and `Except.ok (msg, writes)` when it
returns the outcome string `msg`, with `writes` the list of paths passed to
`cv2.imwrite`. -/
def process_one (blur : BlurFn) (args_input : List String) (out_dir : List String)
    (threshold feather dilate_iters : Int) (keep_structure : Bool) (ft : FileTask) :
    Except String (String × List (List String)) :=
  let out_path := process_one_out_path args_input ft.in_path out_dir keep_structure
  match ft.makedirs_ok with
  | Except.error e => Except.error e
  | Except.ok _ =>
    match ft.imread with
    | none => Except.ok ("SKIP (unreadable): " ++ pathStr ft.in_path, [])
    | some bgr =>
      match remove_black_background_array (blur ft.h ft.w) bgr threshold feather dilate_iters with
      | Except.error e => Except.ok ("ERROR (" ++ pathStr ft.in_path ++ "): " ++ e, [])
      | Except.ok _bgra =>
        if ft.imwrite_ok then Except.ok ("OK: " ++ pathStr out_path, [out_path])
        else Except.ok ("ERROR (write failed): " ++ pathStr out_path, [out_path])

/-- The driver part of `main`: configuration check, empty-discovery early
return, then one `process_one` per file with the outcome strings collected.
`Except.error` models an exception re-raised from a worker (`fut.result()`)
aborting the batch.  The first component of the result is `main`'s return
(exit) code; the second is the collected outcome list. -/
def main_core (blur : BlurFn) (input_isdir : Bool) (args_input out_dir : List String)
    (files : List FileTask) (threshold feather dilate : Int) (keep_structure : Bool) :
    Except String (Int × List String) :=
  if !input_isdir then Except.ok (2, [])
  else if files.isEmpty then Except.ok (0, [])
  else
    (files.mapM fun ft =>
      (process_one blur args_input out_dir threshold feather dilate keep_structure ft).map
        Prod.fst).map fun rs => (0, rs)

/-- Python `str.startswith`. -/
def pyStartswith (s pre : String) : Bool := pre.data.isPrefixOf s.data

/-- The summary tally of `main`: counts of results starting with `"OK"`,
`"ERROR"`, `"SKIP"` respectively. -/
def summarize (results : List String) : Nat × Nat × Nat :=
  (results.countP (fun r => pyStartswith r "OK"),
   results.countP (fun r => pyStartswith r "ERROR"),
   results.countP (fun r => pyStartswith r "SKIP"))

/-- How many of the three summary predicates an outcome string satisfies. -/
def tagCount (r : String) : Nat :=
  (if pyStartswith r "OK" then 1 else 0) +
  (if pyStartswith r "ERROR" then 1 else 0) +
  (if pyStartswith r "SKIP" then 1 else 0)

/-! ### Outcome-string and path lemmas -/

lemma isPrefixOf_append_eq (l1 l2 t : List Char) (hl : l1.length ≤ l2.length) :
    l1.isPrefixOf (l2 ++ t) = l1.isPrefixOf l2 := by
  induction l1 generalizing l2 with
  | nil => simp [List.isPrefixOf]
  | cons a as ih =>
    cases l2 with
    | nil => simp at hl
    | cons b bs =>
      simp only [List.cons_append, List.isPrefixOf]
      rw [List.append_eq, ih bs (Nat.le_of_succ_le_succ hl)]

lemma pyStartswith_append_left (pre s p : String) (hl : pre.data.length ≤ s.data.length) :
    pyStartswith (s ++ p) pre = pyStartswith s pre := by
  unfold pyStartswith
  rw [String.data_append, isPrefixOf_append_eq pre.data s.data p.data hl]

lemma pyStartswith_cons_ne (pre s p : String) (a b : Char) (as bs : List Char)
    (hpre : pre.data = a :: as) (hs : s.data = b :: bs) (hab : (a == b) = false) :
    pyStartswith (s ++ p) pre = false := by
  unfold pyStartswith
  rw [String.data_append, hpre, hs, List.cons_append]
  simp [List.isPrefixOf, hab]

lemma tagCount_ok_msg (p : String) : tagCount ("OK: " ++ p) = 1 := by
  unfold tagCount
  rw [pyStartswith_append_left "OK" "OK: " p (by decide),
    pyStartswith_cons_ne "ERROR" "OK: " p 'E' 'O' "RROR".data "K: ".data
      (by decide) (by decide) (by decide),
    pyStartswith_cons_ne "SKIP" "OK: " p 'S' 'O' "KIP".data "K: ".data
      (by decide) (by decide) (by decide)]
  decide

lemma tagCount_error_msg (p : String) : tagCount ("ERROR (" ++ p) = 1 := by
  unfold tagCount
  rw [pyStartswith_append_left "ERROR" "ERROR (" p (by decide),
    pyStartswith_cons_ne "OK" "ERROR (" p 'O' 'E' "K".data "RROR (".data
      (by decide) (by decide) (by decide),
    pyStartswith_cons_ne "SKIP" "ERROR (" p 'S' 'E' "KIP".data "RROR (".data
      (by decide) (by decide) (by decide)]
  decide

lemma tagCount_skip_msg (p : String) : tagCount ("SKIP (unreadable): " ++ p) = 1 := by
  unfold tagCount
  rw [pyStartswith_append_left "SKIP" "SKIP (unreadable): " p (by decide),
    pyStartswith_cons_ne "OK" "SKIP (unreadable): " p 'O' 'S' "K".data
      "KIP (unreadable): ".data (by decide) (by decide) (by decide),
    pyStartswith_cons_ne "ERROR" "SKIP (unreadable): " p 'E' 'S' "RROR".data
      "KIP (unreadable): ".data (by decide) (by decide) (by decide)]
  decide

lemma snoc_inj {α : Type} {xs ys : List α} {x y : α} (h : xs ++ [x] = ys ++ [y]) :
    xs = ys ∧ x = y := by
  have h2 := congrArg List.reverse h
  simp at h2
  exact ⟨List.reverse_injective (by simp [h2.2]), h2.1⟩

lemma commonPrefixLen_append (s r : List String) : commonPrefixLen (s ++ r) s = s.length := by
  induction s with
  | nil => cases r <;> rfl
  | cons a as ih => simp [commonPrefixLen, ih]

lemma relpathComps_append (s r : List String) :
    relpathComps (s ++ r) s = if r = [] then ["."] else r := by
  unfold relpathComps
  rw [commonPrefixLen_append]
  simp [List.drop_left]

lemma out_path_keep (args_input out_dir rel : List String) (b : String) :
    process_one_out_path args_input (args_input ++ rel ++ [b]) out_dir true =
      out_dir ++ ((if rel = [] then ["."] else rel) ++ [pyStem b ++ ".png"]) := by
  unfold process_one_out_path
  have hdrop : (args_input ++ rel ++ [b]).dropLast = args_input ++ rel := by simp
  have hlast : (args_input ++ rel ++ [b]).getLastD "" = b := by simp
  rw [hdrop, hlast, relpathComps_append]
  simp [List.append_assoc]

lemma out_path_flat (args_input in_path out_dir : List String) :
    process_one_out_path args_input in_path out_dir false =
      out_dir ++ [pyStem (in_path.getLastD "") ++ ".png"] := by
  unfold process_one_out_path
  simp

lemma process_one_ok_inv (blur : BlurFn) (args_input out_dir : List String)
    (t f d : Int) (keep : Bool) (ft : FileTask) (msg : String) (ws : List (List String))
    (hok : process_one blur args_input out_dir t f d keep ft = Except.ok (msg, ws)) :
    (∃ p, msg = "OK: " ++ p) ∨ (∃ p, msg = "ERROR (" ++ p) ∨
    (∃ p, msg = "SKIP (unreadable): " ++ p) := by
  simp only [process_one] at hok
  split at hok
  · cases hok
  · split at hok
    · right; right
      exact ⟨pathStr ft.in_path, by injection hok with h; injection h with h1 h2; exact h1.symm⟩
    · split at hok
      · rename_i e heq
        right; left
        refine ⟨pathStr ft.in_path ++ ("): " ++ e), ?_⟩
        injection hok with h; injection h with h1 h2
        rw [← h1, String.append_assoc, String.append_assoc]
      · split at hok
        · left
          exact ⟨pathStr (process_one_out_path args_input ft.in_path out_dir keep),
            by injection hok with h; injection h with h1 h2; exact h1.symm⟩
        · right; left
          refine ⟨"write failed): " ++
            pathStr (process_one_out_path args_input ft.in_path out_dir keep), ?_⟩
          injection hok with h; injection h with h1 h2
          rw [← h1]
          rw [show ("ERROR (write failed): " : String) = "ERROR (" ++ "write failed): " by decide]
          rw [String.append_assoc]

/-- The dimension-polymorphic identity blur, for concrete witnesses. -/
def idBlurFn : BlurFn := fun _ _ _ a => a

/-- A task whose input decodes fine but whose output-directory creation
raises (`os.makedirs` is outside the `try` block). -/
def taskBoom : FileTask :=
  ⟨["root", "a.jpg"], 1, 1, Except.error "PermissionError", some img10, true⟩

/-- A task whose input file is unreadable (`cv2.imread` returns `None`). -/
def taskSkip : FileTask := ⟨["root", "a.jpg"], 1, 1, Except.ok (), none, true⟩

/-- C5 counterexample: the claim fails for both values of the
structure-preservation flag.  With it disabled, two distinct eligible inputs
in different subdirectories but with the same filename collide on the same
output path; with it enabled, two distinct eligible inputs in the same
directory whose names differ only in extension also collide. -/
theorem c5_counterexample :
    (["root", "a", "img.jpg"] : List String) ≠ ["root", "b", "img.jpg"] ∧
    eligibleName "img.jpg" = true ∧
    process_one_out_path ["root"] ["root", "a", "img.jpg"] ["out"] false =
      process_one_out_path ["root"] ["root", "b", "img.jpg"] ["out"] false ∧
    (["root", "sub", "img.jpg"] : List String) ≠ ["root", "sub", "img.png"] ∧
    eligibleName "img.png" = true ∧
    process_one_out_path ["root"] ["root", "sub", "img.jpg"] ["out"] true =
      process_one_out_path ["root"] ["root", "sub", "img.png"] ["out"] true := by
  decide

/-- C5 (amended): two inputs under the batch root map to distinct output
paths provided their filename stems differ; with structure preservation
enabled the guarantee extends to inputs that differ in relative directory or
in stem.  (Inputs differing only in extension collide in both modes, and with
preservation disabled inputs in different directories with equal stems
collide.) -/
theorem c5_unique_out_paths (args_input out_dir rel1 rel2 : List String) (b1 b2 : String) :
    (rel1 ≠ ["."] → rel2 ≠ ["."] → (rel1 ≠ rel2 ∨ pyStem b1 ≠ pyStem b2) →
      process_one_out_path args_input (args_input ++ rel1 ++ [b1]) out_dir true ≠
        process_one_out_path args_input (args_input ++ rel2 ++ [b2]) out_dir true) ∧
    (pyStem b1 ≠ pyStem b2 →
      process_one_out_path args_input (args_input ++ rel1 ++ [b1]) out_dir false ≠
        process_one_out_path args_input (args_input ++ rel2 ++ [b2]) out_dir false) := by
  constructor
  · intro h1 h2 hne
    rw [out_path_keep, out_path_keep]
    intro heq
    have h3 : (if rel1 = [] then ["."] else rel1) ++ [pyStem b1 ++ ".png"] =
        (if rel2 = [] then ["."] else rel2) ++ [pyStem b2 ++ ".png"] :=
      List.append_cancel_left heq
    have h4 := snoc_inj h3
    have hstem : pyStem b1 = pyStem b2 := by
      have hd := congrArg String.data h4.2
      rw [String.data_append, String.data_append] at hd
      exact String.ext (List.append_cancel_right hd)
    have hrel : rel1 = rel2 := by
      rcases h4 with ⟨req, _⟩
      by_cases e1 : rel1 = [] <;> by_cases e2 : rel2 = []
      · rw [e1, e2]
      · rw [if_pos e1, if_neg e2] at req
        exact absurd req.symm h2
      · rw [if_neg e1, if_pos e2] at req
        exact absurd req h1
      · rw [if_neg e1, if_neg e2] at req
        exact req
    rcases hne with hne | hne
    · exact hne hrel
    · exact hne hstem
  · intro hstem_ne
    rw [out_path_flat, out_path_flat]
    intro heq
    have h3 : [pyStem ((args_input ++ rel1 ++ [b1]).getLastD "") ++ ".png"] =
        [pyStem ((args_input ++ rel2 ++ [b2]).getLastD "") ++ ".png"] :=
      List.append_cancel_left heq
    have hb1 : (args_input ++ rel1 ++ [b1]).getLastD "" = b1 := by simp
    have hb2 : (args_input ++ rel2 ++ [b2]).getLastD "" = b2 := by simp
    rw [hb1, hb2] at h3
    injection h3 with h4 _
    have hd := congrArg String.data h4
    rw [String.data_append, String.data_append] at hd
    exact hstem_ne (String.ext (List.append_cancel_right hd))

theorem c5_unique_out_paths_witness :
    ((["a"] : List String) ≠ ["."] ∧ (["b"] : List String) ≠ ["."] ∧
      ((["a"] : List String) ≠ ["b"] ∨ pyStem "img.jpg" ≠ pyStem "img.jpg") ∧
      process_one_out_path ["root"] (["root"] ++ ["a"] ++ ["img.jpg"]) ["out"] true ≠
        process_one_out_path ["root"] (["root"] ++ ["b"] ++ ["img.jpg"]) ["out"] true) ∧
    (pyStem "cat.jpg" ≠ pyStem "dog.jpg" ∧
      process_one_out_path ["root"] (["root"] ++ ["a"] ++ ["cat.jpg"]) ["out"] false ≠
        process_one_out_path ["root"] (["root"] ++ ["b"] ++ ["dog.jpg"]) ["out"] false) :=
  ⟨⟨by decide, by decide, Or.inl (by decide),
      (c5_unique_out_paths ["root"] ["out"] ["a"] ["b"] "img.jpg" "img.jpg").1
        (by decide) (by decide) (Or.inl (by decide))⟩,
    ⟨by decide,
      (c5_unique_out_paths ["root"] ["out"] ["a"] ["b"] "cat.jpg" "dog.jpg").2 (by decide)⟩⟩

/-- C6 counterexample: an exception raised by `os.makedirs` — which runs
*before* the `try` block of `process_one` — is not caught: `process_one`
propagates it (modelled as `Except.error`) instead of returning a per-file
ERROR outcome, so the claim "any exception ... is caught inside process_one"
is false. -/
theorem c6_counterexample :
    process_one idBlurFn ["root"] ["out"] 20 3 1 false taskBoom =
      Except.error "PermissionError" := by
  decide

/-- C6 (amended): exceptions raised inside the `try` block (mask computation,
encoding) are caught and converted to a per-file outcome, so whenever the
pre-`try` directory creation succeeds, `process_one` returns a terminal
outcome and never propagates an exception; exceptions from the pre-`try`
steps (output-directory creation) do propagate. -/
theorem c6_try_block_catches (blur : BlurFn) (args_input out_dir : List String)
    (t f d : Int) (keep : Bool) (ft : FileTask)
    (hmk : ft.makedirs_ok = Except.ok ()) :
    ∃ msg ws, process_one blur args_input out_dir t f d keep ft = Except.ok (msg, ws) := by
  cases hr : ft.imread with
  | none =>
    exact ⟨"SKIP (unreadable): " ++ pathStr ft.in_path, [],
      by simp [process_one, hmk, hr]⟩
  | some bgr =>
    cases hrem : remove_black_background_array (blur ft.h ft.w) bgr t f d with
    | error e =>
      exact ⟨"ERROR (" ++ pathStr ft.in_path ++ "): " ++ e, [],
        by simp [process_one, hmk, hr, hrem]⟩
    | ok b =>
      cases hw : ft.imwrite_ok
      · exact ⟨"ERROR (write failed): " ++
            pathStr (process_one_out_path args_input ft.in_path out_dir keep),
          [process_one_out_path args_input ft.in_path out_dir keep],
          by simp [process_one, hmk, hr, hrem, hw]⟩
      · exact ⟨"OK: " ++ pathStr (process_one_out_path args_input ft.in_path out_dir keep),
          [process_one_out_path args_input ft.in_path out_dir keep],
          by simp [process_one, hmk, hr, hrem, hw]⟩

theorem c6_try_block_catches_witness :
    taskSkip.makedirs_ok = Except.ok () ∧
    ∃ msg ws, process_one idBlurFn ["root"] ["out"] 20 3 1 false taskSkip =
      Except.ok (msg, ws) :=
  ⟨rfl, c6_try_block_catches idBlurFn ["root"] ["out"] 20 3 1 false taskSkip rfl⟩

/-- C7: when the input root exists but no eligible files are discovered,
`main` returns exit code 0 with an empty result list — no `process_one` is
attempted — and the tally of that empty list is {0 OK, 0 errors, 0 skipped}. -/
theorem c7_empty_batch (blur : BlurFn) (input_isdir : Bool)
    (args_input out_dir : List String) (files : List FileTask)
    (threshold feather dilate : Int) (keep : Bool)
    (hdir : input_isdir = true) (hfiles : files = []) :
    main_core blur input_isdir args_input out_dir files threshold feather dilate keep =
      Except.ok (0, []) ∧
    summarize [] = (0, 0, 0) := by
  subst hdir hfiles
  exact ⟨rfl, rfl⟩

theorem c7_empty_batch_witness :
    (true = true ∧ ([] : List FileTask) = []) ∧
    (main_core idBlurFn true ["root"] ["out"] [] 20 3 1 false = Except.ok (0, []) ∧
      summarize [] = (0, 0, 0)) :=
  ⟨⟨rfl, rfl⟩, c7_empty_batch idBlurFn true ["root"] ["out"] [] 20 3 1 false rfl rfl⟩

/-- C8: when the input file cannot be decoded (`cv2.imread` returns `None`)
and the directory-creation step succeeded, `process_one` returns the
"SKIP (unreadable)" outcome, calls `cv2.imwrite` on nothing (the write list
is empty) and the outcome is not an ERROR outcome. -/
theorem c8_skip_unreadable (blur : BlurFn) (args_input out_dir : List String)
    (t f d : Int) (keep : Bool) (ft : FileTask)
    (hmk : ft.makedirs_ok = Except.ok ()) (hread : ft.imread = none) :
    process_one blur args_input out_dir t f d keep ft =
      Except.ok ("SKIP (unreadable): " ++ pathStr ft.in_path, []) ∧
    pyStartswith ("SKIP (unreadable): " ++ pathStr ft.in_path) "ERROR" = false := by
  constructor
  · simp only [process_one, hmk, hread]
  · rw [pyStartswith_cons_ne "ERROR" "SKIP (unreadable): " (pathStr ft.in_path) 'E' 'S'
      "RROR".data "KIP (unreadable): ".data (by decide) (by decide) (by decide)]

theorem c8_skip_unreadable_witness :
    (taskSkip.makedirs_ok = Except.ok () ∧ taskSkip.imread = none) ∧
    (process_one idBlurFn ["root"] ["out"] 20 3 1 false taskSkip =
        Except.ok ("SKIP (unreadable): " ++ pathStr taskSkip.in_path, []) ∧
      pyStartswith ("SKIP (unreadable): " ++ pathStr taskSkip.in_path) "ERROR" = false) :=
  ⟨⟨rfl, rfl⟩, c8_skip_unreadable idBlurFn ["root"] ["out"] 20 3 1 false taskSkip rfl rfl⟩

/-- C9: the output filename is always `<stem>.png` whatever the input
extension; with structure preservation the input's directory position
relative to the batch root is mirrored under the output directory
(`<root>/sub/img.jpg ↦ <output>/sub/img.png`), and without it the file goes
directly into the output directory (`↦ <output>/img.png`). -/
theorem c9_output_path (args_input out_dir rel : List String) (b : String)
    (hrel : rel ≠ []) :
    process_one_out_path args_input (args_input ++ rel ++ [b]) out_dir true =
      out_dir ++ rel ++ [pyStem b ++ ".png"] ∧
    process_one_out_path args_input (args_input ++ rel ++ [b]) out_dir false =
      out_dir ++ [pyStem b ++ ".png"] ∧
    pyStem "img.jpg" ++ ".png" = "img.png" := by
  refine ⟨?_, ?_, by decide⟩
  · rw [out_path_keep, if_neg hrel, List.append_assoc]
  · rw [out_path_flat]
    simp

theorem c9_output_path_witness :
    (["sub"] : List String) ≠ [] ∧
    (process_one_out_path ["root"] (["root"] ++ ["sub"] ++ ["img.jpg"]) ["out"] true =
        ["out"] ++ ["sub"] ++ [pyStem "img.jpg" ++ ".png"] ∧
      process_one_out_path ["root"] (["root"] ++ ["sub"] ++ ["img.jpg"]) ["out"] false =
        ["out"] ++ [pyStem "img.jpg" ++ ".png"] ∧
      pyStem "img.jpg" ++ ".png" = "img.png") :=
  ⟨by decide, c9_output_path ["root"] ["out"] ["sub"] "img.jpg" (by decide)⟩

/-- C10: every outcome string returned by `process_one` satisfies exactly one
of the three summary predicates (starts with "OK" / "ERROR" / "SKIP"), and
consequently for any list of such results the three summary counters add up
to the number of results. -/
theorem c10_outcome_partition :
    (∀ (blur : BlurFn) (args_input out_dir : List String) (t f d : Int) (keep : Bool)
      (ft : FileTask) (msg : String) (ws : List (List String)),
      process_one blur args_input out_dir t f d keep ft = Except.ok (msg, ws) →
      tagCount msg = 1) ∧
    (∀ results : List String, (∀ r ∈ results, tagCount r = 1) →
      (summarize results).1 + (summarize results).2.1 + (summarize results).2.2 =
        results.length) := by
  constructor
  · intro blur args_input out_dir t f d keep ft msg ws hok
    rcases process_one_ok_inv blur args_input out_dir t f d keep ft msg ws hok with
      ⟨p, rfl⟩ | ⟨p, rfl⟩ | ⟨p, rfl⟩
    · exact tagCount_ok_msg p
    · exact tagCount_error_msg p
    · exact tagCount_skip_msg p
  · intro results
    induction results with
    | nil => intro _; rfl
    | cons a t ih =>
      intro hall
      have ha := hall a (List.mem_cons_self a t)
      have ht := ih fun r hr => hall r (List.mem_cons_of_mem a hr)
      simp only [summarize, List.countP_cons, List.length_cons] at ht ⊢
      unfold tagCount at ha
      split_ifs at ha ⊢ <;> omega

theorem c10_outcome_partition_witness :
    (process_one idBlurFn ["root"] ["out"] 20 3 1 false taskSkip =
        Except.ok ("SKIP (unreadable): root/a.jpg", []) ∧
      tagCount "SKIP (unreadable): root/a.jpg" = 1) ∧
    ((∀ r ∈ (["OK: out/a.png", "SKIP (unreadable): root/a.jpg"] : List String),
        tagCount r = 1) ∧
      (summarize ["OK: out/a.png", "SKIP (unreadable): root/a.jpg"]).1 +
          (summarize ["OK: out/a.png", "SKIP (unreadable): root/a.jpg"]).2.1 +
          (summarize ["OK: out/a.png", "SKIP (unreadable): root/a.jpg"]).2.2 =
        (["OK: out/a.png", "SKIP (unreadable): root/a.jpg"] : List String).length) :=
  ⟨⟨by decide,
      c10_outcome_partition.1 idBlurFn ["root"] ["out"] 20 3 1 false taskSkip
        "SKIP (unreadable): root/a.jpg" [] (by decide)⟩,
    ⟨by decide, c10_outcome_partition.2
      ["OK: out/a.png", "SKIP (unreadable): root/a.jpg"] (by decide)⟩⟩

end StarBurst
